import Mathlib

/-!
# Verification of `well_point_interpolate`

A shallow embedding of `src/well_point_interpolate.py`, a command-line tool
that interpolates points along a well trajectory at given measured depths
(MDs), optionally projecting the resulting x/y coordinates to WGS84
latitude/longitude.

Python floats are modelled as real numbers.  The trajectory solver itself
(the `well_profile` library's `load`/`get_point`) is not part of the
repository's sources; those parts are modelled from the specification
(minimum-curvature segment solver, cumulative path, point interpolator,
survey-table validation) and are marked `Modelled from the spec:` in their
doc comments.  Everything in `main` — argument defaulting, the required-column
check, the per-MD loop with its per-item error handling, the lat/lon
projection step and the shape of the emitted records — is translated from the
source file.
-/

namespace WellPoint

/-- A survey station: measured depth `md`, inclination `inc` (degrees),
azimuth `azi` (degrees) — one row of the input CSV. -/
structure Station where
  md : ℝ
  inc : ℝ
  azi : ℝ

/-- Relative displacement over one MD interval (spec §3 `SegmentDisplacement`). -/
structure SegmentDisplacement where
  dnorth : ℝ
  deast : ℝ
  dtvd : ℝ

/-- Absolute cumulative position along the path (spec §3 `PathPoint`),
`tvd` positive downward. -/
structure PathPt where
  md : ℝ
  north : ℝ
  east : ℝ
  tvd : ℝ

/-- Degrees to radians. -/
noncomputable def deg2rad (x : ℝ) : ℝ := x * Real.pi / 180

/-- Modelled from the spec: the minimum-curvature segment solver (§4.2).
The solver's code lives in the external `well_profile` library, not in this
repository; the dogleg angle, ratio factor and displacement formulas follow
the spec verbatim (trig in radians, degree inputs converted at the
boundary, ratio factor 1 below the 1e-9 dogleg threshold). -/
noncomputable def mcDisplacement (md1 inc1 azi1 md2 inc2 azi2 : ℝ) :
    SegmentDisplacement :=
  let i1 := deg2rad inc1
  let i2 := deg2rad inc2
  let a1 := deg2rad azi1
  let a2 := deg2rad azi2
  let dmd := md2 - md1
  let dogleg :=
    Real.arccos (Real.cos (i2 - i1) -
      Real.sin i1 * Real.sin i2 * (1 - Real.cos (a2 - a1)))
  let rf := if dogleg < 1e-9 then 1 else 2 / dogleg * Real.tan (dogleg / 2)
  { dnorth := dmd / 2 * rf * (Real.sin i1 * Real.cos a1 + Real.sin i2 * Real.cos a2)
    deast := dmd / 2 * rf * (Real.sin i1 * Real.sin a1 + Real.sin i2 * Real.sin a2)
    dtvd := dmd / 2 * rf * (Real.cos i1 + Real.cos i2) }

/-- The cumulative path point after station `s2`, reached from the cumulative
point `p` at station `s1` by adding the minimum-curvature displacement of the
segment `s1 → s2`. -/
noncomputable def stepPoint (p : PathPt) (s1 s2 : Station) : PathPt :=
  let d := mcDisplacement s1.md s1.inc s1.azi s2.md s2.inc s2.azi
  { md := s2.md
    north := p.north + d.dnorth
    east := p.east + d.deast
    tvd := p.tvd + d.dtvd }

/-- Modelled from the spec: the cumulative path points strictly after the
station `s1`, whose cumulative point is `p` (§4.3 Trajectory Path). -/
noncomputable def pathFrom (p : PathPt) (s1 : Station) : List Station → List PathPt
  | [] => []
  | s2 :: rest => stepPoint p s1 s2 :: pathFrom (stepPoint p s1 s2) s2 rest

/-- Modelled from the spec: the full cumulative path, anchored at the start
offsets `x0` (easting) and `y0` (northing) exactly as `wp.load` is called with
`set_start = (east, north) = (x0, y0)` at `src/well_point_interpolate.py:144`. -/
noncomputable def buildPath (x0 y0 : ℝ) : List Station → List PathPt
  | [] => []
  | s :: rest => ⟨s.md, y0, x0, 0⟩ :: pathFrom ⟨s.md, y0, x0, 0⟩ s rest

/-- The MD of the last station (0 for an empty table). -/
def lastStationMd : List Station → ℝ
  | [] => 0
  | [s] => s.md
  | _ :: s :: rest => lastStationMd (s :: rest)

/-- A query MD outside the surveyed interval of the table. -/
def outOfRange (ss : List Station) (md : ℝ) : Prop :=
  match ss with
  | [] => True
  | s :: rest => md < s.md ∨ lastStationMd (s :: rest) < md

/-- The error for a query MD outside the surveyed interval, carrying the
valid `[minMd, maxMd]` bounds for diagnostics (spec §4.3/§7). -/
structure OutOfRangeError where
  minMd : ℝ
  maxMd : ℝ

/-- The signed azimuth difference taken along the shorter angular path:
`d` reduced modulo 360 into a half-turn of either sign (spec §4.4 step 2,
wrap-aware azimuth interpolation). -/
noncomputable def wrapDelta (d : ℝ) : ℝ := d - 360 * (round (d / 360) : ℤ)

/-- Modelled from the spec: linear interpolation of inclination and azimuth at
`md` between stations `s1` and `s2` by the MD fraction `t`, azimuth taken
along the shorter angular path (§4.4 step 2). -/
noncomputable def interpAngles (s1 s2 : Station) (md : ℝ) : ℝ × ℝ :=
  let t := (md - s1.md) / (s2.md - s1.md)
  (s1.inc + t * (s2.inc - s1.inc), s1.azi + t * wrapDelta (s2.azi - s1.azi))

/-- Modelled from the spec: the point interpolator's walk along the table
(§4.4).  `p` is the cumulative path point at station `s1`; the query `md` is
assumed inside `[s1.md, last
station's md]`.  A query exactly at a station's MD returns that station's
stored cumulative point; otherwise the bracketing segment is found, angles are
interpolated at `md`, and the segment solver is run over the partial
interval from the bracketing station to `md`. -/
noncomputable def interpSeg (p : PathPt) (s1 : Station) :
    List Station → ℝ → PathPt
  | [], _ => p
  | s2 :: rest, md =>
    if md = s1.md then p
    else if md ≤ s2.md then
      if md = s2.md then stepPoint p s1 s2
      else
        let angles := interpAngles s1 s2 md
        let d := mcDisplacement s1.md s1.inc s1.azi md angles.1 angles.2
        ⟨md, p.north + d.dnorth, p.east + d.deast, p.tvd + d.dtvd⟩
    else interpSeg (stepPoint p s1 s2) s2 rest md

/-- Modelled from the spec: `well.get_point(md)` — interpolate the absolute
path point at measured depth `md` for the trajectory built from `ss` with
start offsets `x0`/`y0`; an MD outside the surveyed interval fails with an
`OutOfRangeError` carrying the valid bounds (§4.4, §7). -/
noncomputable def getPoint (x0 y0 : ℝ) (ss : List Station) (md : ℝ) :
    Except OutOfRangeError PathPt :=
  match ss with
  | [] => .error ⟨0, 0⟩
  | s :: rest =>
    if md < s.md ∨ lastStationMd (s :: rest) < md then
      .error ⟨s.md, lastStationMd (s :: rest)⟩
    else .ok (interpSeg ⟨s.md, y0, x0, 0⟩ s rest md)

/-- One output record, as `main` builds the Python dicts that are JSONified at
the end.  `md` is always set; `x`/`y`/`z` are `none` exactly when the Python
value is `None` (failed interpolation).  The `lat`/`lon` keys of the Python
dict may be absent altogether, present with value `None`, or present with a
number: `none` models an absent key, `some none` a key set to `None`, and
`some (some v)` a key set to the number `v`. -/
structure Record where
  md : ℝ
  x : Option ℝ
  y : Option ℝ
  z : Option ℝ
  lat : Option (Option ℝ) := none
  lon : Option (Option ℝ) := none

/-- A pyproj point transformer, as the embedding sees it: maps an (x, y) pair
to `some (lon, lat)` or fails for that point. -/
def Tf : Type := ℝ → ℝ → Option (ℝ × ℝ)

/-- The transform call of `add_latlon`: `transformer.transform(xx=x, yy=y)`
raises `TypeError` (modelled as `none`) when `x` or `y` is `None`, and
otherwise applies the transformer, which may itself fail for the point. -/
def projInput (tf : Tf) (x y : Option ℝ) : Option (ℝ × ℝ) :=
  match x, y with
  | some a, some b => tf a b
  | _, _ => none

/-- `add_latlon` (src/well_point_interpolate.py:84-92): try the transform;
on failure set `lon = lat = None`; in either case assign the `lat` and `lon`
keys of the dict (so they are always present after this call). -/
def add_latlon (tf : Tf) (p : Record) : Record :=
  match projInput tf p.x p.y with
  | some (lon, lat) => { p with lat := some (some lat), lon := some (some lon) }
  | none => { p with lat := some none, lon := some none }

/-- The errors `main` can terminate with, each modelling an uncaught Python
exception: the missing-columns `Exception` raised at line 140, a validation
failure inside `wp.load` (modelled from the spec, §4.1), and the
`NameError`/`UnboundLocalError` raised when `mds` is referenced at line 152
after the parse at line 116 failed and left it unassigned. -/
inductive PyError where
  | missingColumns (missing : List String)
  | validation (msg : String)
  | nameError

/-- Whether a `PyError` belongs to the spec's `ValidationError` taxonomy
(malformed or insufficient survey data, §7) rather than being the
unhandled `NameError` slip. -/
def PyError.isValidationError : PyError → Prop
  | .missingColumns _ => True
  | .validation _ => True
  | .nameError => False

/-- The required columns of the input CSV (src/well_point_interpolate.py:136). -/
def requiredCols : List String := ["md", "azi", "inc"]

/-- The required columns that are missing from the input's columns
(`required_cols - well_cols`, src/well_point_interpolate.py:137). -/
def missingCols (cols : List String) : List String :=
  requiredCols.filter (fun c => !cols.contains c)

/-- Modelled from the spec: the survey-table validation performed inside
`wp.load` (§4.1): at least two stations, strictly increasing non-negative
MDs, inclination within [0, 180] (azimuth is wrapped, not rejected). -/
def validStations (ss : List Station) : Prop :=
  2 ≤ ss.length ∧ List.Chain' (fun a b => a.md < b.md) ss ∧
    ∀ s ∈ ss, 0 ≤ s.md ∧ 0 ≤ s.inc ∧ s.inc ≤ 180

/-- `change_azimuth = azi_adj` in the `wp.load` call: add the adjustment to
every station's azimuth (src/well_point_interpolate.py:147). -/
def adjustAzimuth (adj : ℝ) (ss : List Station) : List Station :=
  ss.map fun s => { s with azi := s.azi + adj }

/-- The loop body of `main` (src/well_point_interpolate.py:152-170): try to
interpolate at `md` and build the record with `x = east`, `y = north`,
`z = z0 - tvd`; a failed interpolation is caught and yields the placeholder
record with `x = y = z = None`. -/
noncomputable def pointRecord (x0 y0 z0 : ℝ) (ss : List Station) (md : ℝ) :
    Record :=
  match getPoint x0 y0 ss md with
  | .ok p => { md := md, x := some p.east, y := some p.north, z := some (z0 - p.tvd) }
  | .error _ => { md := md, x := none, y := none, z := none }

/-- The `for md in mds` loop of `main`: starting from the empty list, append
one record per queried MD (src/well_point_interpolate.py:151-170). -/
noncomputable def mainLoop (x0 y0 z0 : ℝ) (ss : List Station) (mds : List ℝ) :
    List Record :=
  mds.foldl (fun points md => points ++ [pointRecord x0 y0 z0 ss md]) []

open Classical in
/-- The projection step of `main` (src/well_point_interpolate.py:172-184):
`get_latlon = wkid and x0 and y0` by Python truthiness (a `None` or zero
`wkid`, or a zero `x0` or `y0`, is falsy); when truthy, build the transformer
— a `CRSError` is caught and leaves the points unchanged — and map
`add_latlon` over the points; otherwise leave the points unchanged. -/
noncomputable def projectStep (wkid : Option Int) (x0 y0 : ℝ)
    (mk : Int → Option Tf) (points : List Record) : List Record :=
  match wkid with
  | none => points
  | some w =>
    if w ≠ 0 ∧ x0 ≠ 0 ∧ y0 ≠ 0 then
      match mk w with
      | some tf => points.map (add_latlon tf)
      | none => points
    else points

open Classical in
/-- What the projection step does to one record: the per-item view of
`projectStep`. -/
noncomputable def finishRecord (wkid : Option Int) (x0 y0 : ℝ)
    (mk : Int → Option Tf) (r : Record) : Record :=
  match wkid with
  | none => r
  | some w =>
    if w ≠ 0 ∧ x0 ≠ 0 ∧ y0 ≠ 0 then
      match mk w with
      | some tf => add_latlon tf r
      | none => r
    else r

open Classical in
/-- `main` (src/well_point_interpolate.py:95-192), as a function of its
environment: `parsedMds` is the outcome of `[float(md) for md in
args.md.split(",")]` (`none` when that raised `ValueError`, in which case the
handler only logs and `mds` stays unassigned); `cols` the columns of the
loaded CSV; `stations` its rows; `wkid`, `x0Arg`, `y0Arg`, `z0Arg`,
`aziAdjArg` the optional CRS/origin/azimuth arguments; `mk` the external
`pyproj.Transformer.from_crs`, `none` modelling a `CRSError`.  The result is
the list of records `main` JSONifies and prints, or the uncaught exception it
dies with. -/
noncomputable def main (parsedMds : Option (List ℝ)) (cols : List String)
    (stations : List Station) (wkid : Option Int)
    (x0Arg y0Arg z0Arg aziAdjArg : Option ℝ) (mk : Int → Option Tf) :
    Except PyError (List Record) :=
  let x0 := x0Arg.getD 0
  let y0 := y0Arg.getD 0
  let z0 := z0Arg.getD 0
  let aziAdj := aziAdjArg.getD 0
  if missingCols cols ≠ [] then
    .error (.missingColumns (missingCols cols))
  else if ¬ validStations stations then
    .error (.validation "malformed or insufficient survey data")
  else
    match parsedMds with
    | none => .error .nameError
    | some mds =>
      .ok (projectStep wkid x0 y0 mk
        (mainLoop x0 y0 z0 (adjustAzimuth aziAdj stations) mds))

/-! ## Helper lemmas -/

theorem add_latlon_md (tf : Tf) (p : Record) : (add_latlon tf p).md = p.md := by
  unfold add_latlon
  cases h : projInput tf p.x p.y with
  | none => rfl
  | some v => cases v; rfl

theorem add_latlon_x (tf : Tf) (p : Record) : (add_latlon tf p).x = p.x := by
  unfold add_latlon
  cases h : projInput tf p.x p.y with
  | none => rfl
  | some v => cases v; rfl

theorem add_latlon_y (tf : Tf) (p : Record) : (add_latlon tf p).y = p.y := by
  unfold add_latlon
  cases h : projInput tf p.x p.y with
  | none => rfl
  | some v => cases v; rfl

theorem add_latlon_z (tf : Tf) (p : Record) : (add_latlon tf p).z = p.z := by
  unfold add_latlon
  cases h : projInput tf p.x p.y with
  | none => rfl
  | some v => cases v; rfl

theorem finishRecord_md (wkid : Option Int) (x0 y0 : ℝ) (mk : Int → Option Tf)
    (r : Record) : (finishRecord wkid x0 y0 mk r).md = r.md := by
  cases wkid with
  | none => rfl
  | some w =>
    unfold finishRecord
    dsimp only
    by_cases h : w ≠ 0 ∧ x0 ≠ 0 ∧ y0 ≠ 0
    · rw [if_pos h]
      cases mk w with
      | none => rfl
      | some tf => exact add_latlon_md tf r
    · rw [if_neg h]

theorem finishRecord_x (wkid : Option Int) (x0 y0 : ℝ) (mk : Int → Option Tf)
    (r : Record) : (finishRecord wkid x0 y0 mk r).x = r.x := by
  cases wkid with
  | none => rfl
  | some w =>
    unfold finishRecord
    dsimp only
    by_cases h : w ≠ 0 ∧ x0 ≠ 0 ∧ y0 ≠ 0
    · rw [if_pos h]
      cases mk w with
      | none => rfl
      | some tf => exact add_latlon_x tf r
    · rw [if_neg h]

theorem finishRecord_y (wkid : Option Int) (x0 y0 : ℝ) (mk : Int → Option Tf)
    (r : Record) : (finishRecord wkid x0 y0 mk r).y = r.y := by
  cases wkid with
  | none => rfl
  | some w =>
    unfold finishRecord
    dsimp only
    by_cases h : w ≠ 0 ∧ x0 ≠ 0 ∧ y0 ≠ 0
    · rw [if_pos h]
      cases mk w with
      | none => rfl
      | some tf => exact add_latlon_y tf r
    · rw [if_neg h]

theorem finishRecord_z (wkid : Option Int) (x0 y0 : ℝ) (mk : Int → Option Tf)
    (r : Record) : (finishRecord wkid x0 y0 mk r).z = r.z := by
  cases wkid with
  | none => rfl
  | some w =>
    unfold finishRecord
    dsimp only
    by_cases h : w ≠ 0 ∧ x0 ≠ 0 ∧ y0 ≠ 0
    · rw [if_pos h]
      cases mk w with
      | none => rfl
      | some tf => exact add_latlon_z tf r
    · rw [if_neg h]

theorem projectStep_eq_map (wkid : Option Int) (x0 y0 : ℝ)
    (mk : Int → Option Tf) (points : List Record) :
    projectStep wkid x0 y0 mk points = points.map (finishRecord wkid x0 y0 mk) := by
  cases wkid with
  | none =>
    rw [show finishRecord none x0 y0 mk = fun r => r from rfl]
    simp [projectStep]
  | some w =>
    unfold projectStep finishRecord
    dsimp only
    by_cases h : w ≠ 0 ∧ x0 ≠ 0 ∧ y0 ≠ 0
    · rw [if_pos h]
      cases mk w with
      | none => simp [if_pos h]
      | some tf => simp [if_pos h]
    · rw [if_neg h]
      simp [if_neg h]

theorem mainLoop_eq_map (x0 y0 z0 : ℝ) (ss : List Station) (mds : List ℝ) :
    mainLoop x0 y0 z0 ss mds = mds.map (pointRecord x0 y0 z0 ss) := by
  unfold mainLoop
  suffices h : ∀ acc : List Record,
      mds.foldl (fun points md => points ++ [pointRecord x0 y0 z0 ss md]) acc =
        acc ++ mds.map (pointRecord x0 y0 z0 ss) by
    simpa using h []
  induction mds with
  | nil => intro acc; simp
  | cons m rest ih => intro acc; simp [ih]

theorem pointRecord_md (x0 y0 z0 : ℝ) (ss : List Station) (md : ℝ) :
    (pointRecord x0 y0 z0 ss md).md = md := by
  unfold pointRecord
  cases getPoint x0 y0 ss md with
  | ok p => rfl
  | error e => rfl

theorem main_ok_eq (mds : List ℝ) (cols : List String) (stations : List Station)
    (wkid : Option Int) (x0Arg y0Arg z0Arg aziAdjArg : Option ℝ)
    (mk : Int → Option Tf) (hcols : missingCols cols = [])
    (hval : validStations stations) :
    main (some mds) cols stations wkid x0Arg y0Arg z0Arg aziAdjArg mk =
      .ok (projectStep wkid (x0Arg.getD 0) (y0Arg.getD 0) mk
        (mainLoop (x0Arg.getD 0) (y0Arg.getD 0) (z0Arg.getD 0)
          (adjustAzimuth (aziAdjArg.getD 0) stations) mds)) := by
  unfold main
  rw [if_neg (by simp [hcols]), if_neg (by simp [hval])]

theorem main_none_eq (cols : List String) (stations : List Station)
    (wkid : Option Int) (x0Arg y0Arg z0Arg aziAdjArg : Option ℝ)
    (mk : Int → Option Tf) (hcols : missingCols cols = [])
    (hval : validStations stations) :
    main none cols stations wkid x0Arg y0Arg z0Arg aziAdjArg mk =
      .error .nameError := by
  unfold main
  rw [if_neg (by simp [hcols]), if_neg (by simp [hval])]

theorem mcDisplacement_const (md1 md2 inc azi : ℝ) :
    mcDisplacement md1 inc azi md2 inc azi =
      { dnorth := (md2 - md1) * (Real.sin (deg2rad inc) * Real.cos (deg2rad azi)),
        deast := (md2 - md1) * (Real.sin (deg2rad inc) * Real.sin (deg2rad azi)),
        dtvd := (md2 - md1) * Real.cos (deg2rad inc) } := by
  unfold mcDisplacement
  simp only [sub_self, Real.cos_zero, mul_zero, sub_zero, Real.arccos_one]
  rw [if_pos (by norm_num : (0 : ℝ) < 1e-9)]
  simp only [SegmentDisplacement.mk.injEq]
  refine ⟨by ring, by ring, by ring⟩

theorem getPoint_oor (x0 y0 : ℝ) (s : Station) (rest : List Station) (md : ℝ)
    (h : md < s.md ∨ lastStationMd (s :: rest) < md) :
    getPoint x0 y0 (s :: rest) md =
      .error ⟨s.md, lastStationMd (s :: rest)⟩ := by
  unfold getPoint
  dsimp only
  rw [if_pos h]

theorem getPoint_inRange (x0 y0 : ℝ) (s : Station) (rest : List Station)
    (md : ℝ) (h : ¬(md < s.md ∨ lastStationMd (s :: rest) < md)) :
    getPoint x0 y0 (s :: rest) md =
      .ok (interpSeg ⟨s.md, y0, x0, 0⟩ s rest md) := by
  unfold getPoint
  dsimp only
  rw [if_neg h]

/-! ## C5: out-of-range queries -/

/-- C5: a query MD below the first station MD or above the last station MD
fails with an `OutOfRangeError` that carries the valid `[min_md, max_md]`
bounds of the surveyed interval. -/
theorem C5_out_of_range_carries_bounds (x0 y0 md : ℝ) (s : Station)
    (rest : List Station)
    (h : md < s.md ∨ lastStationMd (s :: rest) < md) :
    getPoint x0 y0 (s :: rest) md =
      .error { minMd := s.md, maxMd := lastStationMd (s :: rest) } := by
  unfold getPoint
  dsimp only
  rw [if_pos h]

/-- Witness for C5 at a concrete input: querying MD 50000 on a survey
spanning [0, 1000] fails with the error carrying exactly those bounds. -/
theorem C5_witness :
    getPoint 0 0 [⟨0, 0, 0⟩, ⟨1000, 30, 90⟩] 50000 =
      .error { minMd := 0, maxMd := 1000 } := by
  have h := C5_out_of_range_carries_bounds 0 0 50000 ⟨0, 0, 0⟩ [⟨1000, 30, 90⟩]
    (Or.inr (by norm_num [lastStationMd]))
  simpa [lastStationMd] using h

/-! ## C7: the straight-segment reduction of minimum curvature -/

/-- C7: for two stations with identical inclination and azimuth the
minimum-curvature displacement (dogleg angle, ratio factor) reduces to the
straight-segment trigonometric projection: `delta_tvd = Δmd·cos(inc)`,
`delta_north = Δmd·sin(inc)·cos(azi)`, `delta_east = Δmd·sin(inc)·sin(azi)`. -/
theorem C7_straight_segment (md1 md2 inc azi : ℝ) (_h : md1 < md2) :
    mcDisplacement md1 inc azi md2 inc azi =
      { dnorth := (md2 - md1) * (Real.sin (deg2rad inc) * Real.cos (deg2rad azi)),
        deast := (md2 - md1) * (Real.sin (deg2rad inc) * Real.sin (deg2rad azi)),
        dtvd := (md2 - md1) * Real.cos (deg2rad inc) } :=
  mcDisplacement_const md1 md2 inc azi

/-- Witness for C7 at a concrete input: the segment from MD 0 to MD 100 at
constant inclination 30° and azimuth 45°. -/
theorem C7_witness :
    mcDisplacement 0 30 45 100 30 45 =
      { dnorth := 100 * (Real.sin (deg2rad 30) * Real.cos (deg2rad 45)),
        deast := 100 * (Real.sin (deg2rad 30) * Real.sin (deg2rad 45)),
        dtvd := 100 * Real.cos (deg2rad 30) } := by
  have h := C7_straight_segment 0 100 30 45 (by norm_num)
  simpa using h

/-! ## Chain lemmas for strictly increasing survey tables -/

/-- Default station for `List.getD` indexing. -/
def dfltStation : Station := ⟨0, 0, 0⟩

/-- Default path point for `List.getD` indexing. -/
def dfltPathPt : PathPt := ⟨0, 0, 0, 0⟩

/-- Default record for `List.getD` indexing. -/
def dfltRecord : Record := ⟨0, none, none, none, none, none⟩

theorem chain_head_lt :
    ∀ (rest : List Station) (s : Station),
      List.Chain' (fun a b => a.md < b.md) (s :: rest) →
      ∀ j, j < rest.length → s.md < (rest.getD j dfltStation).md := by
  intro rest
  induction rest with
  | nil => intro s _ j hj; simp at hj
  | cons s2 r' ih =>
    intro s hch j hj
    rw [List.chain'_cons] at hch
    cases j with
    | zero => simpa using hch.1
    | succ k =>
      have hk : k < r'.length := by simpa using hj
      have h2 := ih s2 hch.2 k hk
      calc s.md < s2.md := hch.1
        _ < _ := by simpa using h2

theorem chain_head_le_last :
    ∀ (rest : List Station) (s : Station),
      List.Chain' (fun a b => a.md < b.md) (s :: rest) →
      s.md ≤ lastStationMd (s :: rest) := by
  intro rest
  induction rest with
  | nil => intro s _; simp [lastStationMd]
  | cons s2 r' ih =>
    intro s hch
    rw [List.chain'_cons] at hch
    have h2 := ih s2 hch.2
    calc s.md ≤ s2.md := le_of_lt hch.1
      _ ≤ _ := by simpa [lastStationMd] using h2

theorem chain_getD_le_last :
    ∀ (rest : List Station) (s : Station),
      List.Chain' (fun a b => a.md < b.md) (s :: rest) →
      ∀ i, i < (s :: rest).length →
        ((s :: rest).getD i dfltStation).md ≤ lastStationMd (s :: rest) := by
  intro rest
  induction rest with
  | nil =>
    intro s _ i hi
    simp only [List.length_cons, List.length_nil] at hi
    have hi0 : i = 0 := by omega
    subst hi0
    simp [lastStationMd]
  | cons s2 r' ih =>
    intro s hch i hi
    rw [List.chain'_cons] at hch
    cases i with
    | zero =>
      simpa [lastStationMd] using chain_head_le_last (s2 :: r') s
        (List.chain'_cons.mpr hch)
    | succ j =>
      have hj : j < (s2 :: r').length := by simpa using hi
      have h2 := ih s2 hch.2 j hj
      simpa [lastStationMd] using h2

theorem interpSeg_at_station :
    ∀ (rest : List Station) (p : PathPt) (s1 : Station),
      List.Chain' (fun a b => a.md < b.md) (s1 :: rest) →
      ∀ i, i < (s1 :: rest).length →
        interpSeg p s1 rest (((s1 :: rest).getD i dfltStation).md) =
          (p :: pathFrom p s1 rest).getD i dfltPathPt := by
  intro rest
  induction rest with
  | nil =>
    intro p s1 _ i hi
    simp only [List.length_cons, List.length_nil] at hi
    have hi0 : i = 0 := by omega
    subst hi0
    simp [interpSeg]
  | cons s2 r' ih =>
    intro p s1 hch i hi
    rw [List.chain'_cons] at hch
    cases i with
    | zero =>
      simp only [List.getD_cons_zero]
      unfold interpSeg
      rw [if_pos rfl]
    | succ j =>
      simp only [List.getD_cons_succ]
      have hlt : s1.md < ((s2 :: r').getD j dfltStation).md :=
        chain_head_lt (s2 :: r') s1 (List.chain'_cons.mpr hch) j (by simpa using hi)
      cases j with
      | zero =>
        simp only [List.getD_cons_zero] at hlt ⊢
        unfold interpSeg
        rw [if_neg (ne_of_gt hlt), if_pos (le_refl _), if_pos rfl]
        simp [pathFrom]
      | succ k =>
        have hk : k < r'.length := by simpa using hi
        have hgt : s2.md < ((s2 :: r').getD (k + 1) dfltStation).md :=
          chain_head_lt r' s2 hch.2 k (by simpa using hk)
        unfold interpSeg
        rw [if_neg (ne_of_gt hlt), if_neg (not_le_of_lt hgt)]
        have := ih (stepPoint p s1 s2) s2 hch.2 (k + 1) (by simpa using hk)
        simpa [pathFrom] using this

/-! ## C8: interpolating exactly at a station's MD -/

/-- C8: for a valid survey table, interpolating exactly at the `i`-th
station's MD reproduces that station's stored cumulative path point — the
`i`-th entry of the cumulative trajectory path — with no recomputation. -/
theorem C8_station_idempotence (x0 y0 : ℝ) (ss : List Station)
    (hval : validStations ss) (i : ℕ) (hi : i < ss.length) :
    getPoint x0 y0 ss ((ss.getD i dfltStation).md) =
      .ok ((buildPath x0 y0 ss).getD i dfltPathPt) := by
  obtain ⟨-, hch, -⟩ := hval
  match ss, hi with
  | s :: rest, hi =>
    have hmem_le := chain_getD_le_last rest s hch i hi
    have hmem_ge : ¬((s :: rest).getD i dfltStation).md < s.md := by
      cases i with
      | zero => simp
      | succ j =>
        have hj := chain_head_lt rest s hch j (by simpa using hi)
        simp only [List.getD_cons_succ]
        exact lt_asymm hj
    rw [getPoint_inRange x0 y0 s rest _ (by push_neg; exact ⟨le_of_not_lt hmem_ge, hmem_le⟩)]
    rw [interpSeg_at_station rest ⟨s.md, y0, x0, 0⟩ s hch i hi]
    rfl

/-- Witness for C8 at a concrete input: the second station of the
two-station table spanning [0, 1000]. -/
theorem C8_witness :
    getPoint 0 0 [⟨0, 0, 0⟩, ⟨1000, 30, 90⟩]
        (([⟨0, 0, 0⟩, ⟨1000, 30, 90⟩] : List Station).getD 1 dfltStation).md =
      .ok ((buildPath 0 0 [⟨0, 0, 0⟩, ⟨1000, 30, 90⟩]).getD 1 dfltPathPt) := by
  refine C8_station_idempotence 0 0 _ ⟨by norm_num, ?_, ?_⟩ 1 (by norm_num)
  · refine List.chain'_cons.mpr ⟨by norm_num, List.chain'_singleton _⟩
  · intro s hs
    simp only [List.mem_cons, List.not_mem_nil, or_false] at hs
    rcases hs with rfl | rfl <;> exact ⟨by norm_num, by norm_num, by norm_num⟩

/-! ## Frame-offset equivariance of the path and the interpolator -/

/-- Shift a path point by the start offsets `x0` (east) and `y0` (north). -/
noncomputable def offsetPt (x0 y0 : ℝ) (q : PathPt) : PathPt :=
  ⟨q.md, q.north + y0, q.east + x0, q.tvd⟩

theorem stepPoint_offset (x0 y0 : ℝ) (p : PathPt) (s1 s2 : Station) :
    stepPoint (offsetPt x0 y0 p) s1 s2 = offsetPt x0 y0 (stepPoint p s1 s2) := by
  simp only [stepPoint, offsetPt]
  congr 1 <;> ring

theorem interpSeg_offset (x0 y0 : ℝ) :
    ∀ (rest : List Station) (p : PathPt) (s1 : Station) (md : ℝ),
      interpSeg (offsetPt x0 y0 p) s1 rest md =
        offsetPt x0 y0 (interpSeg p s1 rest md) := by
  intro rest
  induction rest with
  | nil => intro p s1 md; rfl
  | cons s2 r' ih =>
    intro p s1 md
    unfold interpSeg
    by_cases h1 : md = s1.md
    · rw [if_pos h1, if_pos h1]
    · rw [if_neg h1, if_neg h1]
      by_cases h2 : md ≤ s2.md
      · rw [if_pos h2, if_pos h2]
        by_cases h3 : md = s2.md
        · rw [if_pos h3, if_pos h3]
          exact stepPoint_offset x0 y0 p s1 s2
        · rw [if_neg h3, if_neg h3]
          simp only [offsetPt]
          congr 1 <;> ring
      · rw [if_neg h2, if_neg h2, stepPoint_offset x0 y0 p s1 s2]
        exact ih (stepPoint p s1 s2) s2 md

theorem getPoint_offset (x0 y0 : ℝ) (ss : List Station) (md : ℝ) :
    getPoint x0 y0 ss md = (getPoint 0 0 ss md).map (offsetPt x0 y0) := by
  cases ss with
  | nil => rfl
  | cons s rest =>
    unfold getPoint
    dsimp only
    by_cases h : md < s.md ∨ lastStationMd (s :: rest) < md
    · rw [if_pos h, if_pos h]
      rfl
    · rw [if_neg h, if_neg h]
      have h0 : (⟨s.md, y0, x0, 0⟩ : PathPt) = offsetPt x0 y0 ⟨s.md, 0, 0, 0⟩ := by
        simp [offsetPt]
      rw [h0, interpSeg_offset]
      rfl

/-! ## Concrete-evaluation helpers -/

theorem getD_map_of_lt {α β : Type} (f : α → β) (l : List α) (i : ℕ)
    (hi : i < l.length) (da : α) (db : β) :
    (l.map f).getD i db = f (l.getD i da) := by
  rw [List.getD_eq_getElem?_getD, List.getD_eq_getElem?_getD,
    List.getElem?_map, List.getElem?_eq_getElem hi]
  rfl

theorem getPoint_head (x0 y0 : ℝ) (s : Station) (rest : List Station)
    (hle : s.md ≤ lastStationMd (s :: rest)) :
    getPoint x0 y0 (s :: rest) s.md = .ok ⟨s.md, y0, x0, 0⟩ := by
  rw [getPoint_inRange x0 y0 s rest s.md (by push_neg; exact ⟨le_refl _, hle⟩)]
  cases rest with
  | nil => rfl
  | cons s2 r' =>
    unfold interpSeg
    rw [if_pos rfl]

theorem getPoint_two_last (x0 y0 : ℝ) (s1 s2 : Station) (h : s1.md < s2.md) :
    getPoint x0 y0 [s1, s2] s2.md = .ok (stepPoint ⟨s1.md, y0, x0, 0⟩ s1 s2) := by
  have hlast : lastStationMd [s1, s2] = s2.md := rfl
  rw [getPoint_inRange x0 y0 s1 [s2] s2.md
    (by push_neg; rw [hlast]; exact ⟨le_of_lt h, le_refl _⟩)]
  unfold interpSeg
  rw [if_neg (ne_of_gt h), if_pos (le_refl _), if_pos rfl]

theorem deg2rad_zero : deg2rad 0 = 0 := by
  unfold deg2rad
  ring

theorem deg2rad_ninety : deg2rad 90 = Real.pi / 2 := by
  unfold deg2rad
  ring

theorem mcDisp_horizontal_north :
    mcDisplacement 0 90 0 100 90 0 = ⟨100, 0, 0⟩ := by
  rw [mcDisplacement_const]
  simp only [deg2rad_zero, deg2rad_ninety, Real.sin_pi_div_two,
    Real.cos_pi_div_two, Real.sin_zero, Real.cos_zero,
    SegmentDisplacement.mk.injEq]
  norm_num

theorem stepPoint_horizontal_north :
    stepPoint ⟨0, 0, 0, 0⟩ ⟨0, 90, 0⟩ ⟨100, 90, 0⟩ = ⟨100, 100, 0, 0⟩ := by
  simp only [stepPoint, mcDisp_horizontal_north]
  norm_num

/-! ## C1: how the origin and the cumulative displacement reach the output -/

/-- C1 counterexample: for the horizontal due-north segment from station
(md 0, inc 90°, azi 0°) to (md 100, inc 90°, azi 0°) with zero origin, the
cumulative displacement at MD 100 is north = 100, east = 0, tvd = 0, yet the
emitted record has `x = 0` and `y = 100` — so `x = origin.x + north`
(which would demand `x = 100`) is false: the code emits `x = origin.x + east`
and `y = origin.y + north`, the axes swapped relative to the claim. -/
theorem C1_counterexample :
    main (some [100]) ["md", "azi", "inc"] [⟨0, 90, 0⟩, ⟨100, 90, 0⟩]
        none none none none none (fun _ => none) =
      .ok [{ md := 100, x := some 0, y := some 100, z := some 0 }] ∧
    getPoint 0 0 [⟨0, 90, 0⟩, ⟨100, 90, 0⟩] 100 =
      .ok { md := 100, north := 100, east := 0, tvd := 0 } ∧
    (some (0 : ℝ)) ≠ some ((0 : ℝ) + 100) := by
  have hgp : getPoint 0 0 [⟨0, 90, 0⟩, ⟨100, 90, 0⟩] 100 =
      .ok ⟨100, 100, 0, 0⟩ := by
    have h := getPoint_two_last 0 0 ⟨0, 90, 0⟩ ⟨100, 90, 0⟩ (by norm_num)
    dsimp only at h
    rw [stepPoint_horizontal_north] at h
    exact h
  refine ⟨?_, hgp, by norm_num⟩
  rw [main_ok_eq [100] ["md", "azi", "inc"] [⟨0, 90, 0⟩, ⟨100, 90, 0⟩]
    none none none none none (fun _ => none) rfl ?hval]
  case hval =>
    refine ⟨by norm_num, ?_, ?_⟩
    · exact List.chain'_cons.mpr ⟨by norm_num, List.chain'_singleton _⟩
    · intro s hs
      simp only [List.mem_cons, List.not_mem_nil, or_false] at hs
      rcases hs with rfl | rfl <;> exact ⟨by norm_num, by norm_num, by norm_num⟩
  have hadj : adjustAzimuth (0 : ℝ) [⟨0, 90, 0⟩, ⟨100, 90, 0⟩] =
      [⟨0, 90, 0⟩, ⟨100, 90, 0⟩] := by
    simp [adjustAzimuth]
  simp only [Option.getD_none]
  rw [hadj, mainLoop_eq_map, projectStep_eq_map]
  simp only [List.map_map, List.map_cons, List.map_nil, Function.comp]
  rw [show finishRecord none 0 0 (fun _ => none) = fun r => r from rfl]
  unfold pointRecord
  rw [hgp]
  norm_num

/-- C1 corrected: for every interpolated point of a successful run, the final
output coordinates are `x = origin.x + east`, `y = origin.y + north` and
`z = origin.z - tvd`, where `(north, east, tvd)` is the cumulative
displacement along the path at that MD (the path point of the zero-offset
trajectory) and `(origin.x, origin.y, origin.z) = (x0, y0, z0)`. -/
theorem C1_output_frame (cols : List String) (stations : List Station)
    (wkid : Option Int) (x0Arg y0Arg z0Arg aziAdjArg : Option ℝ)
    (mk : Int → Option Tf) (mds : List ℝ) (hcols : missingCols cols = [])
    (hval : validStations stations) (i : ℕ) (hi : i < mds.length) (d : PathPt)
    (hd : getPoint 0 0 (adjustAzimuth (aziAdjArg.getD 0) stations)
      (mds.getD i 0) = .ok d) :
    ∃ recs, main (some mds) cols stations wkid x0Arg y0Arg z0Arg aziAdjArg mk =
        .ok recs ∧
      (recs.getD i dfltRecord).x = some (x0Arg.getD 0 + d.east) ∧
      (recs.getD i dfltRecord).y = some (y0Arg.getD 0 + d.north) ∧
      (recs.getD i dfltRecord).z = some (z0Arg.getD 0 - d.tvd) := by
  refine ⟨_, main_ok_eq mds cols stations wkid x0Arg y0Arg z0Arg aziAdjArg mk
    hcols hval, ?_, ?_, ?_⟩ <;>
  · rw [projectStep_eq_map, mainLoop_eq_map,
      getD_map_of_lt _ _ i (by simpa using hi) dfltRecord dfltRecord,
      getD_map_of_lt _ _ i hi (0 : ℝ) dfltRecord]
    first
      | rw [finishRecord_x] | rw [finishRecord_y] | rw [finishRecord_z]
    unfold pointRecord
    rw [getPoint_offset, hd]
    simp only [Except.map]
    simp only [offsetPt]
    try rw [add_comm]

/-- Witness for the corrected C1 at a concrete input: the horizontal
due-north segment, zero origin. -/
theorem C1_witness :
    ∃ recs, main (some [100]) ["md", "azi", "inc"] [⟨0, 90, 0⟩, ⟨100, 90, 0⟩]
        none none none none none (fun _ => none) = .ok recs ∧
      (recs.getD 0 dfltRecord).x =
        some ((none : Option ℝ).getD 0 + (⟨100, 100, 0, 0⟩ : PathPt).east) ∧
      (recs.getD 0 dfltRecord).y =
        some ((none : Option ℝ).getD 0 + (⟨100, 100, 0, 0⟩ : PathPt).north) ∧
      (recs.getD 0 dfltRecord).z =
        some ((none : Option ℝ).getD 0 - (⟨100, 100, 0, 0⟩ : PathPt).tvd) := by
  refine C1_output_frame ["md", "azi", "inc"] [⟨0, 90, 0⟩, ⟨100, 90, 0⟩]
    none none none none none (fun _ => none) [100] rfl
    ⟨by norm_num, ?_, ?_⟩ 0 (by norm_num) ⟨100, 100, 0, 0⟩ ?_
  · exact List.chain'_cons.mpr ⟨by norm_num, List.chain'_singleton _⟩
  · intro s hs
    simp only [List.mem_cons, List.not_mem_nil, or_false] at hs
    rcases hs with rfl | rfl <;> exact ⟨by norm_num, by norm_num, by norm_num⟩
  · simp only [Option.getD_none]
    rw [show adjustAzimuth (0 : ℝ) [⟨0, 90, 0⟩, ⟨100, 90, 0⟩] =
        [⟨0, 90, 0⟩, ⟨100, 90, 0⟩] by simp [adjustAzimuth]]
    simp only [List.getD_cons_zero]
    have h := getPoint_two_last 0 0 ⟨0, 90, 0⟩ ⟨100, 90, 0⟩ (by norm_num)
    dsimp only at h
    rw [stepPoint_horizontal_north] at h
    exact h

theorem pointRecord_oor (x0 y0 z0 : ℝ) (ss : List Station) (md : ℝ)
    (h : outOfRange ss md) :
    pointRecord x0 y0 z0 ss md = ⟨md, none, none, none, none, none⟩ := by
  cases ss with
  | nil => rfl
  | cons s rest =>
    unfold pointRecord
    rw [getPoint_oor x0 y0 s rest md h]

/-! ## C2: batch isolation of out-of-range queries -/

/-- C2: in a successful run the batch loop emits one record per queried MD; a
query MD outside the surveyed interval yields the null/placeholder record for
that MD (`x = y = z` null, its `md` preserved), while every other MD in the
batch is still processed and produces its own per-item result — an
out-of-range query never aborts the batch. -/
theorem C2_batch_isolation (cols : List String) (stations : List Station)
    (wkid : Option Int) (x0Arg y0Arg z0Arg aziAdjArg : Option ℝ)
    (mk : Int → Option Tf) (mds : List ℝ) (hcols : missingCols cols = [])
    (hval : validStations stations) (i : ℕ) (hi : i < mds.length)
    (hoor : outOfRange (adjustAzimuth (aziAdjArg.getD 0) stations)
      (mds.getD i 0)) :
    ∃ recs, main (some mds) cols stations wkid x0Arg y0Arg z0Arg aziAdjArg mk =
        .ok recs ∧
      recs.length = mds.length ∧
      (recs.getD i dfltRecord).md = mds.getD i 0 ∧
      (recs.getD i dfltRecord).x = none ∧
      (recs.getD i dfltRecord).y = none ∧
      (recs.getD i dfltRecord).z = none ∧
      ∀ j, j < mds.length →
        recs.getD j dfltRecord =
          finishRecord wkid (x0Arg.getD 0) (y0Arg.getD 0) mk
            (pointRecord (x0Arg.getD 0) (y0Arg.getD 0) (z0Arg.getD 0)
              (adjustAzimuth (aziAdjArg.getD 0) stations) (mds.getD j 0)) := by
  have key : ∀ j, j < mds.length →
      (projectStep wkid (x0Arg.getD 0) (y0Arg.getD 0) mk
          (mainLoop (x0Arg.getD 0) (y0Arg.getD 0) (z0Arg.getD 0)
            (adjustAzimuth (aziAdjArg.getD 0) stations) mds)).getD j dfltRecord =
        finishRecord wkid (x0Arg.getD 0) (y0Arg.getD 0) mk
          (pointRecord (x0Arg.getD 0) (y0Arg.getD 0) (z0Arg.getD 0)
            (adjustAzimuth (aziAdjArg.getD 0) stations) (mds.getD j 0)) := by
    intro j hj
    rw [projectStep_eq_map, mainLoop_eq_map,
      getD_map_of_lt _ _ j (by simpa using hj) dfltRecord dfltRecord,
      getD_map_of_lt _ _ j hj (0 : ℝ) dfltRecord]
  refine ⟨_, main_ok_eq mds cols stations wkid x0Arg y0Arg z0Arg aziAdjArg mk
    hcols hval, ?_, ?_, ?_, ?_, ?_, key⟩
  · rw [projectStep_eq_map, mainLoop_eq_map]
    simp
  · rw [key i hi, finishRecord_md, pointRecord_oor _ _ _ _ _ hoor]
  · rw [key i hi, finishRecord_x, pointRecord_oor _ _ _ _ _ hoor]
  · rw [key i hi, finishRecord_y, pointRecord_oor _ _ _ _ _ hoor]
  · rw [key i hi, finishRecord_z, pointRecord_oor _ _ _ _ _ hoor]

/-- Witness for C2 at the spec's concrete inputs: MDs [500, 50000] against a
survey spanning [0, 1000]; the second query is out of range. -/
theorem C2_witness :
    ∃ recs, main (some [500, 50000]) ["md", "azi", "inc"]
        [⟨0, 0, 0⟩, ⟨1000, 0, 0⟩] none none none none none (fun _ => none) =
        .ok recs ∧
      recs.length = ([500, 50000] : List ℝ).length ∧
      (recs.getD 1 dfltRecord).md = ([500, 50000] : List ℝ).getD 1 0 ∧
      (recs.getD 1 dfltRecord).x = none ∧
      (recs.getD 1 dfltRecord).y = none ∧
      (recs.getD 1 dfltRecord).z = none ∧
      ∀ j, j < ([500, 50000] : List ℝ).length →
        recs.getD j dfltRecord =
          finishRecord none ((none : Option ℝ).getD 0) ((none : Option ℝ).getD 0)
            (fun _ => none)
            (pointRecord ((none : Option ℝ).getD 0) ((none : Option ℝ).getD 0)
              ((none : Option ℝ).getD 0)
              (adjustAzimuth ((none : Option ℝ).getD 0) [⟨0, 0, 0⟩, ⟨1000, 0, 0⟩])
              (([500, 50000] : List ℝ).getD j 0)) := by
  refine C2_batch_isolation ["md", "azi", "inc"] [⟨0, 0, 0⟩, ⟨1000, 0, 0⟩]
    none none none none none (fun _ => none) [500, 50000] rfl
    ⟨by norm_num, ?_, ?_⟩ 1 (by norm_num) ?_
  · exact List.chain'_cons.mpr ⟨by norm_num, List.chain'_singleton _⟩
  · intro s hs
    simp only [List.mem_cons, List.not_mem_nil, or_false] at hs
    rcases hs with rfl | rfl <;> exact ⟨by norm_num, by norm_num, by norm_num⟩
  · simp only [Option.getD_none]
    norm_num [outOfRange, adjustAzimuth, lastStationMd]

/-! ## C10: one record per query MD, in order -/

/-- C10: in a successful run the printed output contains exactly one record
per query MD, in the order given, and each record's `md` field equals the
corresponding query value — whether or not interpolation or projection
succeeded for that point. -/
theorem C10_one_record_per_md (cols : List String) (stations : List Station)
    (wkid : Option Int) (x0Arg y0Arg z0Arg aziAdjArg : Option ℝ)
    (mk : Int → Option Tf) (mds : List ℝ) (hcols : missingCols cols = [])
    (hval : validStations stations) :
    ∃ recs, main (some mds) cols stations wkid x0Arg y0Arg z0Arg aziAdjArg mk =
        .ok recs ∧
      recs.map Record.md = mds := by
  refine ⟨_, main_ok_eq mds cols stations wkid x0Arg y0Arg z0Arg aziAdjArg mk
    hcols hval, ?_⟩
  rw [projectStep_eq_map, mainLoop_eq_map, List.map_map, List.map_map]
  have hid : ((Record.md ∘ finishRecord wkid (x0Arg.getD 0) (y0Arg.getD 0) mk) ∘
      pointRecord (x0Arg.getD 0) (y0Arg.getD 0) (z0Arg.getD 0)
        (adjustAzimuth (aziAdjArg.getD 0) stations)) = id := by
    funext md
    simp [Function.comp, finishRecord_md, pointRecord_md]
  rw [hid, List.map_id]

/-- Witness for C10 at a concrete input: MDs [500, 50000] (one in range, one
out of range) against the survey spanning [0, 1000]. -/
theorem C10_witness :
    ∃ recs, main (some [500, 50000]) ["md", "azi", "inc"]
        [⟨0, 0, 0⟩, ⟨1000, 0, 0⟩] none none none none none (fun _ => none) =
        .ok recs ∧
      recs.map Record.md = [500, 50000] := by
  refine C10_one_record_per_md ["md", "azi", "inc"] [⟨0, 0, 0⟩, ⟨1000, 0, 0⟩]
    none none none none none (fun _ => none) [500, 50000] rfl
    ⟨by norm_num, ?_, ?_⟩
  · exact List.chain'_cons.mpr ⟨by norm_num, List.chain'_singleton _⟩
  · intro s hs
    simp only [List.mem_cons, List.not_mem_nil, or_false] at hs
    rcases hs with rfl | rfl <;> exact ⟨by norm_num, by norm_num, by norm_num⟩

/-! ## C9: a failed md parse leaves mds unassigned -/

/-- C9: when parsing the `md` argument failed (the `except ValueError` handler
only logs — it neither exits nor assigns `mds`), `main` continues past the
column check and the trajectory construction and then dies with the unhandled
`NameError` at the first use of `mds`, not with a clean validation error;
and an earlier failure (a missing column) still takes precedence, showing
execution really does continue to that first use. -/
theorem C9_unbound_mds (cols : List String) (stations : List Station)
    (wkid : Option Int) (x0Arg y0Arg z0Arg aziAdjArg : Option ℝ)
    (mk : Int → Option Tf) (hcols : missingCols cols = [])
    (hval : validStations stations) :
    main none cols stations wkid x0Arg y0Arg z0Arg aziAdjArg mk =
        .error .nameError ∧
    ¬ (PyError.nameError).isValidationError ∧
    ∀ cols', missingCols cols' ≠ [] →
      main none cols' stations wkid x0Arg y0Arg z0Arg aziAdjArg mk =
        .error (.missingColumns (missingCols cols')) := by
  refine ⟨main_none_eq cols stations wkid x0Arg y0Arg z0Arg aziAdjArg mk
    hcols hval, fun h => h, ?_⟩
  intro cols' hc
  unfold main
  rw [if_pos hc]

/-- Witness for C9 at a concrete input: an unparseable md argument together
with a well-formed CSV ends in the unhandled `NameError`. -/
theorem C9_witness :
    main none ["md", "azi", "inc"] [⟨0, 0, 0⟩, ⟨1000, 0, 0⟩]
        none none none none none (fun _ => none) = .error .nameError ∧
    ¬ (PyError.nameError).isValidationError ∧
    ∀ cols', missingCols cols' ≠ [] →
      main none cols' [⟨0, 0, 0⟩, ⟨1000, 0, 0⟩]
          none none none none none (fun _ => none) =
        .error (.missingColumns (missingCols cols')) := by
  refine C9_unbound_mds ["md", "azi", "inc"] [⟨0, 0, 0⟩, ⟨1000, 0, 0⟩]
    none none none none none (fun _ => none) rfl ⟨by norm_num, ?_, ?_⟩
  · exact List.chain'_cons.mpr ⟨by norm_num, List.chain'_singleton _⟩
  · intro s hs
    simp only [List.mem_cons, List.not_mem_nil, or_false] at hs
    rcases hs with rfl | rfl <;> exact ⟨by norm_num, by norm_num, by norm_num⟩

/-! ## C6: malformed input is fatal to the whole run -/

/-- C6: an input table missing a required column, or failing the survey
validation (<2 stations, non-monotonic MD, inclination out of [0, 180]),
makes `main` fail with a single validation-family error and no partial
result; a missing column is carried in the error. -/
theorem C6_validation_fatal (parsedMds : Option (List ℝ)) (cols : List String)
    (stations : List Station) (wkid : Option Int)
    (x0Arg y0Arg z0Arg aziAdjArg : Option ℝ) (mk : Int → Option Tf)
    (h : missingCols cols ≠ [] ∨ ¬ validStations stations) :
    (∃ e, main parsedMds cols stations wkid x0Arg y0Arg z0Arg aziAdjArg mk =
        .error e ∧ e.isValidationError) ∧
    (missingCols cols ≠ [] →
      main parsedMds cols stations wkid x0Arg y0Arg z0Arg aziAdjArg mk =
        .error (.missingColumns (missingCols cols))) := by
  have hmiss : missingCols cols ≠ [] →
      main parsedMds cols stations wkid x0Arg y0Arg z0Arg aziAdjArg mk =
        .error (.missingColumns (missingCols cols)) := by
    intro hc
    unfold main
    rw [if_pos hc]
  refine ⟨?_, hmiss⟩
  by_cases hc : missingCols cols = []
  · have hv : ¬ validStations stations := by
      rcases h with h | h
      · exact absurd hc h
      · exact h
    refine ⟨.validation "malformed or insufficient survey data", ?_, trivial⟩
    unfold main
    rw [if_neg (by simp [hc]), if_pos hv]
  · exact ⟨.missingColumns (missingCols cols), hmiss hc, trivial⟩

/-- Witness for C6 at a concrete input: a CSV missing the `inc` column. -/
theorem C6_witness :
    (∃ e, main (some [500]) ["md", "azi"] [⟨0, 0, 0⟩, ⟨1000, 0, 0⟩]
        none none none none none (fun _ => none) = .error e ∧
        e.isValidationError) ∧
    (missingCols ["md", "azi"] ≠ [] →
      main (some [500]) ["md", "azi"] [⟨0, 0, 0⟩, ⟨1000, 0, 0⟩]
          none none none none none (fun _ => none) =
        .error (.missingColumns (missingCols ["md", "azi"]))) := by
  refine C6_validation_fatal (some [500]) ["md", "azi"] [⟨0, 0, 0⟩, ⟨1000, 0, 0⟩]
    none none none none none (fun _ => none) (Or.inl ?_)
  decide

/-! ## C3: presence of lat/lon in the output records -/

/-- C3 counterexample: with a transformer that is constructed but fails for
the point (the `TypeError`/failure path of `add_latlon`), the output record
keeps `x`, `y`, `z` but has its `lat` and `lon` keys PRESENT with null values
(`some none`), not absent (`none`) — refuting "when projection fails for a
point, lat and lon are absent from that record". -/
theorem C3_counterexample :
    main (some [0]) ["md", "azi", "inc"] [⟨0, 0, 0⟩, ⟨1000, 0, 0⟩]
        (some 3857) (some 1) (some 1) none none
        (fun _ => some (fun _ _ => none)) =
      .ok [{ md := 0, x := some 1, y := some 1, z := some 0,
             lat := some none, lon := some none }] ∧
    ({ md := 0, x := some 1, y := some 1, z := some 0,
       lat := some none, lon := some none } : Record).lat ≠ none := by
  refine ⟨?_, by simp⟩
  have hgp : getPoint 1 1 [⟨0, 0, 0⟩, ⟨1000, 0, 0⟩] 0 = .ok ⟨0, 1, 1, 0⟩ := by
    have h := getPoint_head 1 1 ⟨0, 0, 0⟩ [⟨1000, 0, 0⟩] (by norm_num [lastStationMd])
    simpa using h
  rw [main_ok_eq [0] ["md", "azi", "inc"] [⟨0, 0, 0⟩, ⟨1000, 0, 0⟩]
    (some 3857) (some 1) (some 1) none none (fun _ => some (fun _ _ => none))
    rfl ?hval]
  case hval =>
    refine ⟨by norm_num, ?_, ?_⟩
    · exact List.chain'_cons.mpr ⟨by norm_num, List.chain'_singleton _⟩
    · intro s hs
      simp only [List.mem_cons, List.not_mem_nil, or_false] at hs
      rcases hs with rfl | rfl <;> exact ⟨by norm_num, by norm_num, by norm_num⟩
  simp only [Option.getD_some, Option.getD_none]
  rw [show adjustAzimuth (0 : ℝ) [⟨0, 0, 0⟩, ⟨1000, 0, 0⟩] =
      [⟨0, 0, 0⟩, ⟨1000, 0, 0⟩] by simp [adjustAzimuth], mainLoop_eq_map]
  simp only [List.map_cons, List.map_nil]
  unfold pointRecord
  rw [hgp]
  unfold projectStep
  dsimp only
  rw [if_pos ⟨by norm_num, by norm_num, by norm_num⟩]
  norm_num [add_latlon, projInput]

/-- C3 corrected: after the projection step runs on a record, the `lat` and
`lon` keys are always present; they carry numbers exactly when the transform
of that record's (x, y) succeeds and are present-but-null when it fails (a
missing x/y included), while `md`, `x`, `y`, `z` are kept unchanged.  (They
are absent only from records the projection step never touches.) -/
theorem C3_latlon_presence (tf : Tf) (p : Record) :
    (add_latlon tf p).md = p.md ∧
    (add_latlon tf p).x = p.x ∧
    (add_latlon tf p).y = p.y ∧
    (add_latlon tf p).z = p.z ∧
    (add_latlon tf p).lat = some ((projInput tf p.x p.y).map Prod.snd) ∧
    (add_latlon tf p).lon = some ((projInput tf p.x p.y).map Prod.fst) := by
  unfold add_latlon
  cases hp : projInput tf p.x p.y with
  | none => exact ⟨rfl, rfl, rfl, rfl, rfl, rfl⟩
  | some v =>
    cases v with
    | mk o l => exact ⟨rfl, rfl, rfl, rfl, rfl, rfl⟩

/-! ## C4: when the projection adapter is invoked -/

/-- C4 counterexample: the CRS id 0 is supplied together with a non-zero
origin, yet the projection step is skipped (Python truthiness makes the
`wkid and x0 and y0` guard falsy for `wkid = 0`): the emitted record carries
no `lat`/`lon`, although the supplied transformer would have produced them —
refuting "invoked if a source CRS id and a non-zero origin are all
supplied". -/
theorem C4_counterexample :
    (some (0 : Int)).isSome = true ∧ ((1 : ℝ) ≠ 0) ∧
    main (some [0]) ["md", "azi", "inc"] [⟨0, 0, 0⟩, ⟨1000, 0, 0⟩]
        (some 0) (some 1) (some 1) none none
        (fun _ => some (fun a b => some (a + 1000, b + 1000))) =
      .ok [{ md := 0, x := some 1, y := some 1, z := some 0 }] := by
  refine ⟨rfl, by norm_num, ?_⟩
  have hgp : getPoint 1 1 [⟨0, 0, 0⟩, ⟨1000, 0, 0⟩] 0 = .ok ⟨0, 1, 1, 0⟩ := by
    have h := getPoint_head 1 1 ⟨0, 0, 0⟩ [⟨1000, 0, 0⟩] (by norm_num [lastStationMd])
    simpa using h
  rw [main_ok_eq [0] ["md", "azi", "inc"] [⟨0, 0, 0⟩, ⟨1000, 0, 0⟩]
    (some 0) (some 1) (some 1) none none
    (fun _ => some (fun a b => some (a + 1000, b + 1000))) rfl ?hval]
  case hval =>
    refine ⟨by norm_num, ?_, ?_⟩
    · exact List.chain'_cons.mpr ⟨by norm_num, List.chain'_singleton _⟩
    · intro s hs
      simp only [List.mem_cons, List.not_mem_nil, or_false] at hs
      rcases hs with rfl | rfl <;> exact ⟨by norm_num, by norm_num, by norm_num⟩
  simp only [Option.getD_some, Option.getD_none]
  rw [show adjustAzimuth (0 : ℝ) [⟨0, 0, 0⟩, ⟨1000, 0, 0⟩] =
      [⟨0, 0, 0⟩, ⟨1000, 0, 0⟩] by simp [adjustAzimuth], mainLoop_eq_map]
  simp only [List.map_cons, List.map_nil]
  unfold pointRecord
  rw [hgp]
  unfold projectStep
  dsimp only
  rw [if_neg (fun hcond => hcond.1 rfl)]
  norm_num

/-- C4 corrected: in a successful run, the projection adapter is applied to
the computed points iff the CRS id is supplied and nonzero AND x0 ≠ 0 AND
y0 ≠ 0 AND the transformer can be constructed; whenever the transformer
construction fails (or the guard is falsy, or no CRS id is given), the
already-computed records are returned completely unchanged — x/y/z intact
and lat/lon absent. -/
theorem C4_projection_guard (cols : List String) (stations : List Station)
    (x0Arg y0Arg z0Arg aziAdjArg : Option ℝ) (mk : Int → Option Tf)
    (mds : List ℝ) (hcols : missingCols cols = [])
    (hval : validStations stations) :
    (∀ w : Int, w ≠ 0 → x0Arg.getD 0 ≠ 0 → y0Arg.getD 0 ≠ 0 → ∀ tf,
      mk w = some tf →
      main (some mds) cols stations (some w) x0Arg y0Arg z0Arg aziAdjArg mk =
        .ok ((mainLoop (x0Arg.getD 0) (y0Arg.getD 0) (z0Arg.getD 0)
          (adjustAzimuth (aziAdjArg.getD 0) stations) mds).map (add_latlon tf))) ∧
    (∀ w : Int, mk w = none →
      main (some mds) cols stations (some w) x0Arg y0Arg z0Arg aziAdjArg mk =
        .ok (mainLoop (x0Arg.getD 0) (y0Arg.getD 0) (z0Arg.getD 0)
          (adjustAzimuth (aziAdjArg.getD 0) stations) mds)) ∧
    (∀ w : Int, ¬(w ≠ 0 ∧ x0Arg.getD 0 ≠ 0 ∧ y0Arg.getD 0 ≠ 0) →
      main (some mds) cols stations (some w) x0Arg y0Arg z0Arg aziAdjArg mk =
        .ok (mainLoop (x0Arg.getD 0) (y0Arg.getD 0) (z0Arg.getD 0)
          (adjustAzimuth (aziAdjArg.getD 0) stations) mds)) ∧
    main (some mds) cols stations none x0Arg y0Arg z0Arg aziAdjArg mk =
      .ok (mainLoop (x0Arg.getD 0) (y0Arg.getD 0) (z0Arg.getD 0)
        (adjustAzimuth (aziAdjArg.getD 0) stations) mds) := by
  refine ⟨?_, ?_, ?_, ?_⟩
  · intro w hw hx hy tf htf
    rw [main_ok_eq mds cols stations (some w) x0Arg y0Arg z0Arg aziAdjArg mk
      hcols hval]
    unfold projectStep
    dsimp only
    rw [if_pos ⟨hw, hx, hy⟩, htf]
  · intro w htf
    rw [main_ok_eq mds cols stations (some w) x0Arg y0Arg z0Arg aziAdjArg mk
      hcols hval]
    unfold projectStep
    dsimp only
    by_cases hc : w ≠ 0 ∧ x0Arg.getD 0 ≠ 0 ∧ y0Arg.getD 0 ≠ 0
    · rw [if_pos hc, htf]
    · rw [if_neg hc]
  · intro w hc
    rw [main_ok_eq mds cols stations (some w) x0Arg y0Arg z0Arg aziAdjArg mk
      hcols hval]
    unfold projectStep
    dsimp only
    rw [if_neg hc]
  · rw [main_ok_eq mds cols stations none x0Arg y0Arg z0Arg aziAdjArg mk
      hcols hval]
    rfl

/-- Witness for C4 at a concrete input. -/
theorem C4_witness :
    (∀ w : Int, w ≠ 0 → ((some (1 : ℝ)).getD 0) ≠ 0 →
      ((some (1 : ℝ)).getD 0) ≠ 0 → ∀ tf,
      (fun _ : Int => (none : Option Tf)) w = some tf →
      main (some [500]) ["md", "azi", "inc"] [⟨0, 0, 0⟩, ⟨1000, 0, 0⟩] (some w)
          (some 1) (some 1) none none (fun _ => none) =
        .ok ((mainLoop ((some (1 : ℝ)).getD 0) ((some (1 : ℝ)).getD 0)
          ((none : Option ℝ).getD 0)
          (adjustAzimuth ((none : Option ℝ).getD 0) [⟨0, 0, 0⟩, ⟨1000, 0, 0⟩])
          [500]).map (add_latlon tf))) ∧
    (∀ w : Int, (fun _ : Int => (none : Option Tf)) w = none →
      main (some [500]) ["md", "azi", "inc"] [⟨0, 0, 0⟩, ⟨1000, 0, 0⟩] (some w)
          (some 1) (some 1) none none (fun _ => none) =
        .ok (mainLoop ((some (1 : ℝ)).getD 0) ((some (1 : ℝ)).getD 0)
          ((none : Option ℝ).getD 0)
          (adjustAzimuth ((none : Option ℝ).getD 0) [⟨0, 0, 0⟩, ⟨1000, 0, 0⟩])
          [500])) ∧
    (∀ w : Int, ¬(w ≠ 0 ∧ ((some (1 : ℝ)).getD 0) ≠ 0 ∧
        ((some (1 : ℝ)).getD 0) ≠ 0) →
      main (some [500]) ["md", "azi", "inc"] [⟨0, 0, 0⟩, ⟨1000, 0, 0⟩] (some w)
          (some 1) (some 1) none none (fun _ => none) =
        .ok (mainLoop ((some (1 : ℝ)).getD 0) ((some (1 : ℝ)).getD 0)
          ((none : Option ℝ).getD 0)
          (adjustAzimuth ((none : Option ℝ).getD 0) [⟨0, 0, 0⟩, ⟨1000, 0, 0⟩])
          [500])) ∧
    main (some [500]) ["md", "azi", "inc"] [⟨0, 0, 0⟩, ⟨1000, 0, 0⟩] none
        (some 1) (some 1) none none (fun _ => none) =
      .ok (mainLoop ((some (1 : ℝ)).getD 0) ((some (1 : ℝ)).getD 0)
        ((none : Option ℝ).getD 0)
        (adjustAzimuth ((none : Option ℝ).getD 0) [⟨0, 0, 0⟩, ⟨1000, 0, 0⟩])
        [500]) := by
  refine C4_projection_guard ["md", "azi", "inc"] [⟨0, 0, 0⟩, ⟨1000, 0, 0⟩]
    (some 1) (some 1) none none (fun _ => none) [500] rfl
    ⟨by norm_num, ?_, ?_⟩
  · exact List.chain'_cons.mpr ⟨by norm_num, List.chain'_singleton _⟩
  · intro s hs
    simp only [List.mem_cons, List.not_mem_nil, or_false] at hs
    rcases hs with rfl | rfl <;> exact ⟨by norm_num, by norm_num, by norm_num⟩

end WellPoint
